import Mathlib

/-!
Verification development for the map-vision-spy frontend.

The repository is a Next.js client around a mapping SDK and an external
segmentation service.  The parts embedded here are the pieces with genuine
logic, translated from the TypeScript source:

* the linear geographic-to-pixel converter defined inline in
  handleSaveImage (app page component, the geoToPixel closure);
* the canvas compositing routine handleSaveImage, modelled as the exact
  sequence of canvas-context operations it issues;
* the captured-images history update in handleConfirmDetection;
* the request-building prompt filtering in handleConfirmDetection and
  handleImageCapture;
* the loading-flag discipline of the UI as an event-step relation.

Numbers are embedded as rationals.  Where JavaScript division by zero
matters, a small JSNum type with IEEE-style infinities and NaN is used.
-/

/-- Geographic bounding box as produced by getMapBounds in
src/frontend/lib/mapbox.ts: north, south, east, west in degrees. -/
structure MapBounds where
  north : ℚ
  south : ℚ
  east : ℚ
  west : ℚ
deriving DecidableEq

/-- The inline converter from handleSaveImage:
x = ((lng - west) / (east - west)) * width,
y = ((north - lat) / (north - south)) * height. -/
def geoToPixel (lng lat : ℚ) (b : MapBounds) (width height : ℚ) : ℚ × ℚ :=
  (((lng - b.west) / (b.east - b.west)) * width,
   ((b.north - lat) / (b.north - b.south)) * height)

/-- Modelled from the spec: the repository has no linear pixelToGeo taking a
bounding box and image dimensions (the pixelToGeo in src/frontend/lib/mapbox.ts
delegates to the external mapping SDK).  This is the formula the spec gives:
lng = west + (x / width) * (east - west),
lat = north - (y / height) * (north - south). -/
def pixelToGeo (x y : ℚ) (b : MapBounds) (width height : ℚ) : ℚ × ℚ :=
  (b.west + (x / width) * (b.east - b.west),
   b.north - (y / height) * (b.north - b.south))

/-- C1: for a non-degenerate bounding box and positive image dimensions, the
two converters are mutually inverse: converting a pixel position to geographic
coordinates and back yields the same pixel position, and converting a
geographic point to pixels and back yields the same geographic point. -/
theorem spec_C1_roundtrip (b : MapBounds) (w h x y lng lat : ℚ)
    (hew : b.east - b.west ≠ 0) (hns : b.north - b.south ≠ 0)
    (hw : 0 < w) (hh : 0 < h)
    (hx0 : 0 ≤ x) (hxw : x ≤ w) (hy0 : 0 ≤ y) (hyh : y ≤ h)
    (hlw : b.west ≤ lng) (hle : lng ≤ b.east)
    (hls : b.south ≤ lat) (hln : lat ≤ b.north) :
    geoToPixel (pixelToGeo x y b w h).1 (pixelToGeo x y b w h).2 b w h = (x, y) ∧
    pixelToGeo (geoToPixel lng lat b w h).1 (geoToPixel lng lat b w h).2 b w h
      = (lng, lat) := by
  have hw' : w ≠ 0 := ne_of_gt hw
  have hh' : h ≠ 0 := ne_of_gt hh
  constructor <;>
  · simp only [geoToPixel, pixelToGeo, Prod.mk.injEq]
    constructor <;> · field_simp; ring

/-- Witness for C1 at a concrete bounding box, image size and points. -/
theorem spec_C1_roundtrip_witness :
    ((3 : ℚ) - 1 ≠ 0) ∧ ((2 : ℚ) - 1 ≠ 0) ∧
    (geoToPixel (pixelToGeo 128 64 ⟨2, 1, 3, 1⟩ 512 256).1
        (pixelToGeo 128 64 ⟨2, 1, 3, 1⟩ 512 256).2 ⟨2, 1, 3, 1⟩ 512 256
        = (128, 64) ∧
     pixelToGeo (geoToPixel 2 (3/2) ⟨2, 1, 3, 1⟩ 512 256).1
        (geoToPixel 2 (3/2) ⟨2, 1, 3, 1⟩ 512 256).2 ⟨2, 1, 3, 1⟩ 512 256
        = (2, 3/2)) :=
  ⟨by norm_num, by norm_num,
   spec_C1_roundtrip ⟨2, 1, 3, 1⟩ 512 256 128 64 2 (3/2)
     (by norm_num) (by norm_num) (by norm_num) (by norm_num)
     (by norm_num) (by norm_num) (by norm_num) (by norm_num)
     (by norm_num) (by norm_num) (by norm_num) (by norm_num)⟩

/-- C2: the conversion is the linear equirectangular-local map.  pixelToGeo
computes the stated formula, geoToPixel is its exact inverse on both sides,
and the corners map as stated: pixel (0,0) to (west, north) and pixel
(width, height) to (east, south); symmetrically geoToPixel sends (west, north)
to (0,0) and (east, south) to (width, height). -/
theorem spec_C2_linear_map (b : MapBounds) (w h : ℚ)
    (hew : b.east - b.west ≠ 0) (hns : b.north - b.south ≠ 0)
    (hw : w ≠ 0) (hh : h ≠ 0) :
    (∀ x y : ℚ, pixelToGeo x y b w h
        = (b.west + (x / w) * (b.east - b.west),
           b.north - (y / h) * (b.north - b.south))) ∧
    (∀ lng lat : ℚ,
        pixelToGeo (geoToPixel lng lat b w h).1 (geoToPixel lng lat b w h).2 b w h
          = (lng, lat)) ∧
    (∀ x y : ℚ,
        geoToPixel (pixelToGeo x y b w h).1 (pixelToGeo x y b w h).2 b w h
          = (x, y)) ∧
    pixelToGeo 0 0 b w h = (b.west, b.north) ∧
    pixelToGeo w h b w h = (b.east, b.south) ∧
    geoToPixel b.west b.north b w h = (0, 0) ∧
    geoToPixel b.east b.south b w h = (w, h) := by
  refine ⟨fun x y => rfl, fun lng lat => ?_, fun x y => ?_, ?_, ?_, ?_, ?_⟩ <;>
  · simp only [geoToPixel, pixelToGeo, Prod.mk.injEq]
    constructor <;> · field_simp; try ring

/-- Witness for C2 at a concrete bounding box and image size. -/
theorem spec_C2_linear_map_witness :
    ((3 : ℚ) - 1 ≠ 0) ∧ ((2 : ℚ) - 1 ≠ 0) ∧
    (pixelToGeo 0 0 ⟨2, 1, 3, 1⟩ 512 256 = (1, 2) ∧
     pixelToGeo 512 256 ⟨2, 1, 3, 1⟩ 512 256 = (3, 1)) :=
  ⟨by norm_num, by norm_num,
   ⟨(spec_C2_linear_map ⟨2, 1, 3, 1⟩ 512 256
       (by norm_num) (by norm_num) (by norm_num) (by norm_num)).2.2.2.1,
    (spec_C2_linear_map ⟨2, 1, 3, 1⟩ 512 256
       (by norm_num) (by norm_num) (by norm_num) (by norm_num)).2.2.2.2.1⟩⟩

/-- JavaScript number values relevant to the converter: finite numbers,
the two infinities and NaN.  Rationals stand in for finite doubles. -/
inductive JSNum where
  | num : ℚ → JSNum
  | inf : JSNum
  | negInf : JSNum
  | nan : JSNum
deriving DecidableEq

/-- JavaScript subtraction on JSNum values. -/
def JSNum.sub : JSNum → JSNum → JSNum
  | JSNum.num a, JSNum.num b => JSNum.num (a - b)
  | JSNum.nan, _ => JSNum.nan
  | _, JSNum.nan => JSNum.nan
  | JSNum.inf, JSNum.inf => JSNum.nan
  | JSNum.inf, _ => JSNum.inf
  | JSNum.negInf, JSNum.negInf => JSNum.nan
  | JSNum.negInf, _ => JSNum.negInf
  | JSNum.num _, JSNum.inf => JSNum.negInf
  | JSNum.num _, JSNum.negInf => JSNum.inf

/-- JavaScript division on JSNum values: division by zero yields an infinity
of the numerator sign, or NaN when the numerator is also zero. -/
def JSNum.div : JSNum → JSNum → JSNum
  | JSNum.num a, JSNum.num b =>
      if b ≠ 0 then JSNum.num (a / b)
      else if 0 < a then JSNum.inf
      else if a < 0 then JSNum.negInf
      else JSNum.nan
  | JSNum.nan, _ => JSNum.nan
  | _, JSNum.nan => JSNum.nan
  | JSNum.num _, JSNum.inf => JSNum.num 0
  | JSNum.num _, JSNum.negInf => JSNum.num 0
  | JSNum.inf, JSNum.num b => if 0 ≤ b then JSNum.inf else JSNum.negInf
  | JSNum.negInf, JSNum.num b => if 0 ≤ b then JSNum.negInf else JSNum.inf
  | JSNum.inf, _ => JSNum.nan
  | JSNum.negInf, _ => JSNum.nan

/-- JavaScript multiplication on JSNum values: an infinity times zero is NaN. -/
def JSNum.mul : JSNum → JSNum → JSNum
  | JSNum.num a, JSNum.num b => JSNum.num (a * b)
  | JSNum.nan, _ => JSNum.nan
  | _, JSNum.nan => JSNum.nan
  | JSNum.inf, JSNum.num b =>
      if 0 < b then JSNum.inf else if b < 0 then JSNum.negInf else JSNum.nan
  | JSNum.negInf, JSNum.num b =>
      if 0 < b then JSNum.negInf else if b < 0 then JSNum.inf else JSNum.nan
  | JSNum.num a, JSNum.inf =>
      if 0 < a then JSNum.inf else if a < 0 then JSNum.negInf else JSNum.nan
  | JSNum.num a, JSNum.negInf =>
      if 0 < a then JSNum.negInf else if a < 0 then JSNum.inf else JSNum.nan
  | JSNum.inf, JSNum.inf => JSNum.inf
  | JSNum.inf, JSNum.negInf => JSNum.negInf
  | JSNum.negInf, JSNum.inf => JSNum.negInf
  | JSNum.negInf, JSNum.negInf => JSNum.inf

/-- A JSNum is finite when it is an ordinary number. -/
def JSNum.isFinite : JSNum → Bool
  | JSNum.num _ => true
  | _ => false

/-- The inline geoToPixel of handleSaveImage evaluated under JavaScript
number semantics: the source performs the two divisions unconditionally,
with no degeneracy check and no throw, so the function always returns a
pair of JSNum values. -/
def geoToPixelJS (lng lat : ℚ) (b : MapBounds) (width height : ℚ) : JSNum × JSNum :=
  (JSNum.mul
     (JSNum.div (JSNum.sub (JSNum.num lng) (JSNum.num b.west))
                (JSNum.sub (JSNum.num b.east) (JSNum.num b.west)))
     (JSNum.num width),
   JSNum.mul
     (JSNum.div (JSNum.sub (JSNum.num b.north) (JSNum.num lat))
                (JSNum.sub (JSNum.num b.north) (JSNum.num b.south)))
     (JSNum.num height))

/-- The error the spec prescribes for a degenerate bounding box. -/
inductive DegenerateBoundsError where
  | degenerate : DegenerateBoundsError
deriving DecidableEq

/-- Modelled from the spec: the checked converter the spec describes, which
fails with DegenerateBoundsError when west == east or north == south instead
of dividing by zero.  No such check exists anywhere in the repository. -/
def geoToPixelChecked (lng lat : ℚ) (b : MapBounds) (width height : ℚ) :
    Except DegenerateBoundsError (ℚ × ℚ) :=
  if b.east = b.west ∨ b.north = b.south then
    Except.error DegenerateBoundsError.degenerate
  else
    Except.ok (geoToPixel lng lat b width height)

/-- Division of a finite number by literal zero is never finite. -/
lemma JSNum.div_num_zero_not_finite (a : ℚ) :
    (JSNum.div (JSNum.num a) (JSNum.num 0)).isFinite = false := by
  simp only [JSNum.div, ne_eq, not_true_eq_false, if_false]
  split_ifs <;> rfl

/-- Multiplying a non-finite value by a finite number stays non-finite. -/
lemma JSNum.mul_num_not_finite (v : JSNum) (q : ℚ) (hv : v.isFinite = false) :
    (JSNum.mul v (JSNum.num q)).isFinite = false := by
  cases v with
  | num a => simp [JSNum.isFinite] at hv
  | inf =>
      show (if 0 < q then JSNum.inf else if q < 0 then JSNum.negInf else JSNum.nan).isFinite = false
      split_ifs <;> rfl
  | negInf =>
      show (if 0 < q then JSNum.negInf else if q < 0 then JSNum.inf else JSNum.nan).isFinite = false
      split_ifs <;> rfl
  | nan => rfl

/-- C3 counterexample: on the degenerate bounding box with west == east the
converter in the code does not fail; it divides by zero and returns normally
with an infinite x coordinate, while the converter the spec describes fails
with DegenerateBoundsError at the same input. -/
theorem spec_C3_counterexample :
    geoToPixelJS 6 0 ⟨1, 0, 5, 5⟩ 512 512 = (JSNum.inf, JSNum.num 512) ∧
    geoToPixelChecked 6 0 ⟨1, 0, 5, 5⟩ 512 512
      = Except.error DegenerateBoundsError.degenerate := by
  constructor
  · simp only [geoToPixelJS, JSNum.sub, JSNum.div, JSNum.mul]
    norm_num
  · simp only [geoToPixelChecked]
    norm_num

/-- C3 amended: the converter performs no degeneracy check.  On a bounding
box with east == west the x result is never finite (it is an infinity or
NaN), and symmetrically with north == south the y result is never finite;
the function returns this pair rather than failing. -/
theorem spec_C3_no_degeneracy_check (lng lat : ℚ) (b : MapBounds)
    (width height : ℚ) :
    (b.east = b.west → (geoToPixelJS lng lat b width height).1.isFinite = false) ∧
    (b.north = b.south → (geoToPixelJS lng lat b width height).2.isFinite = false) := by
  constructor
  · intro he
    have hz : b.east - b.west = 0 := by rw [he]; ring
    simp only [geoToPixelJS, JSNum.sub, hz]
    exact JSNum.mul_num_not_finite _ width (JSNum.div_num_zero_not_finite _)
  · intro hn
    have hz : b.north - b.south = 0 := by rw [hn]; ring
    simp only [geoToPixelJS, JSNum.sub, hz]
    exact JSNum.mul_num_not_finite _ height (JSNum.div_num_zero_not_finite _)

/-- Witness for the amended C3 at a concrete degenerate bounding box. -/
theorem spec_C3_no_degeneracy_check_witness :
    ((5 : ℚ) = 5) ∧
    (geoToPixelJS 6 0 ⟨1, 0, 5, 5⟩ 512 512).1.isFinite = false :=
  ⟨rfl, (spec_C3_no_degeneracy_check 6 0 ⟨1, 0, 5, 5⟩ 512 512).1 rfl⟩

/-- A prompt as defined in src/frontend/app/components/PromptInput.tsx:
an id, a text label and a hex color string. -/
structure Prompt where
  id : String
  text : String
  color : String
deriving DecidableEq

/-- A detection geometry: Polygon (a list of linear rings, each a list of
lng-lat pairs) or MultiPolygon (a list of such ring lists), matching the
GeoJSON geometries the compositor branches on. -/
inductive Geometry where
  | polygon : List (List (ℚ × ℚ)) → Geometry
  | multiPolygon : List (List (List (ℚ × ℚ))) → Geometry
deriving DecidableEq

/-- A detection feature as consumed by handleSaveImage: a geometry and the
optional color read from feature.properties. -/
structure Feature where
  geometry : Geometry
  color : Option String
deriving DecidableEq

/-- One canvas-context operation issued by handleSaveImage.  The trace of
these operations is the embedding of the composited output. -/
inductive CanvasOp where
  | drawImage : CanvasOp
  | setFillStyle : String → CanvasOp
  | setStrokeStyle : String → CanvasOp
  | setLineWidth : ℚ → CanvasOp
  | beginPath : CanvasOp
  | moveTo : ℚ → ℚ → CanvasOp
  | lineTo : ℚ → ℚ → CanvasOp
  | closePath : CanvasOp
  | fill : CanvasOp
  | stroke : CanvasOp
  | fillRect : ℚ → ℚ → ℚ → ℚ → CanvasOp
  | strokeRect : ℚ → ℚ → ℚ → ℚ → CanvasOp
  | setFont : String → CanvasOp
  | fillText : String → ℚ → ℚ → CanvasOp
deriving DecidableEq

/-- The color chosen for a feature: the color property of the feature, with "#FF0000" as JavaScript or-fallback.
In JavaScript the fallback fires exactly when the property is absent or the
empty string (the only falsy string); any other string is used verbatim. -/
def colorOf : Option String → String
  | none => "#FF0000"
  | some c => if c = "" then "#FF0000" else c

/-- The moveTo/lineTo sequence the coords.forEach loop issues for one ring:
the first vertex becomes moveTo, the rest lineTo, each vertex converted with
the inline geoToPixel. -/
def ringOps (b : MapBounds) (w h : ℚ) : List (ℚ × ℚ) → List CanvasOp
  | [] => []
  | c :: cs =>
      CanvasOp.moveTo (geoToPixel c.1 c.2 b w h).1 (geoToPixel c.1 c.2 b w h).2 ::
      cs.map (fun d =>
        CanvasOp.lineTo (geoToPixel d.1 d.2 b w h).1 (geoToPixel d.1 d.2 b w h).2)

/-- The path block the compositor issues for one polygon ring list: beginPath,
the vertex operations of ring 0 only (coordinates[0], the outer ring), then
closePath, fill, stroke. -/
def polyPathOps (b : MapBounds) (w h : ℚ) (rings : List (List (ℚ × ℚ))) :
    List CanvasOp :=
  CanvasOp.beginPath :: ringOps b w h (rings.headD []) ++
    [CanvasOp.closePath, CanvasOp.fill, CanvasOp.stroke]

/-- All operations issued for one feature: set fill style to the color plus
the "66" alpha suffix, set stroke style and line width, then the path block,
once for a Polygon and once per polygon for a MultiPolygon. -/
def featureOps (b : MapBounds) (w h : ℚ) (f : Feature) : List CanvasOp :=
  CanvasOp.setFillStyle (colorOf f.color ++ "66") ::
  CanvasOp.setStrokeStyle (colorOf f.color) ::
  CanvasOp.setLineWidth 2 ::
  (match f.geometry with
   | Geometry.polygon rings => polyPathOps b w h rings
   | Geometry.multiPolygon polys =>
       polys.flatMap (fun poly => polyPathOps b w h poly))

/-- The legend entry for one prompt at vertical offset yPos: color swatch
fillRect, black strokeRect, white label text at legendX + 28, yPos + 12. -/
def legendEntryOps (p : Prompt) (yPos : ℚ) : List CanvasOp :=
  [CanvasOp.setFillStyle p.color,
   CanvasOp.fillRect 10 yPos 20 15,
   CanvasOp.setStrokeStyle "#000",
   CanvasOp.strokeRect 10 yPos 20 15,
   CanvasOp.setFillStyle "#fff",
   CanvasOp.fillText p.text 38 (yPos + 12)]

/-- The prompts.forEach loop of the legend: entry i is drawn at
y = legendY + i * 25, so successive entries advance the offset by 25. -/
def legendEntriesOps : List Prompt → ℚ → List CanvasOp
  | [], _ => []
  | p :: ps, yPos => legendEntryOps p yPos ++ legendEntriesOps ps (yPos + 25)

/-- The whole legend block: font, semi-transparent panel rectangle at
(legendX - 5, legendY - 15) sized 150 by 25 * prompts.length + 10, then
the per-prompt entries starting at legendY = 20. -/
def legendOps (ps : List Prompt) : List CanvasOp :=
  CanvasOp.setFont "14px sans-serif" ::
  CanvasOp.setFillStyle "rgba(0, 0, 0, 0.7)" ::
  CanvasOp.fillRect 5 5 150 (25 * ps.length + 10) ::
  legendEntriesOps ps 20

/-- The full compositing trace of handleSaveImage when results are present:
draw the base image, draw every feature in order, then the legend. -/
def handleSaveImageOps (b : MapBounds) (w h : ℚ) (fs : List Feature)
    (ps : List Prompt) : List CanvasOp :=
  CanvasOp.drawImage ::
  fs.flatMap (featureOps b w h) ++ legendOps ps

/-- Path-drawing operations: the ones a polygon contributes and the legend
never issues. -/
def isPathOp : CanvasOp → Bool
  | CanvasOp.beginPath => true
  | CanvasOp.moveTo _ _ => true
  | CanvasOp.lineTo _ _ => true
  | CanvasOp.closePath => true
  | CanvasOp.fill => true
  | CanvasOp.stroke => true
  | _ => false

/-- The legend entries issue no path-drawing operation. -/
lemma legendEntriesOps_no_path (ps : List Prompt) (yPos : ℚ) :
    (legendEntriesOps ps yPos).all (fun op => !(isPathOp op)) = true := by
  induction ps generalizing yPos with
  | nil => rfl
  | cons p ps ih =>
      simp only [legendEntriesOps, legendEntryOps, List.all_append, List.all_cons,
        List.all_nil, isPathOp, Bool.not_false, Bool.and_true, Bool.true_and]
      exact ih (yPos + 25)

/-- C4: compositing an empty feature collection issues exactly the base-image
draw followed by the legend, and the legend contains no path-drawing
operation, so no polygon fill or stroke is drawn. -/
theorem spec_C4_empty_collection (b : MapBounds) (w h : ℚ) (ps : List Prompt) :
    handleSaveImageOps b w h [] ps = CanvasOp.drawImage :: legendOps ps ∧
    (legendOps ps).all (fun op => !(isPathOp op)) = true := by
  constructor
  · simp [handleSaveImageOps]
  · simp only [legendOps, List.all_cons, isPathOp, Bool.not_false, Bool.true_and]
    exact legendEntriesOps_no_path ps 20

/-- C5: only the outer ring of each polygon is rendered.  For a Polygon the
operations depend only on ring 0 (inner rings are never rendered and changing
them changes nothing); the same holds for each member polygon of a
MultiPolygon; and a MultiPolygon is exactly an ordered sequence of independent
polygon path blocks, the first rendered identically to a standalone Polygon. -/
theorem spec_C5_outer_ring_only (b : MapBounds) (w h : ℚ) (c : Option String)
    (r0 : List (ℚ × ℚ)) (rest rest2 : List (List (ℚ × ℚ)))
    (more : List (List (List (ℚ × ℚ)))) (poly : List (List (ℚ × ℚ))) :
    featureOps b w h ⟨Geometry.polygon (r0 :: rest), c⟩
      = featureOps b w h ⟨Geometry.polygon [r0], c⟩ ∧
    featureOps b w h ⟨Geometry.polygon (r0 :: rest), c⟩
      = featureOps b w h ⟨Geometry.polygon (r0 :: rest2), c⟩ ∧
    featureOps b w h ⟨Geometry.multiPolygon ((r0 :: rest) :: more), c⟩
      = featureOps b w h ⟨Geometry.multiPolygon ([r0] :: more), c⟩ ∧
    featureOps b w h ⟨Geometry.multiPolygon (poly :: more), c⟩
      = featureOps b w h ⟨Geometry.polygon poly, c⟩
          ++ more.flatMap (polyPathOps b w h) := by
  refine ⟨rfl, rfl, ?_, ?_⟩
  · simp [featureOps, polyPathOps]
  · simp [featureOps, List.flatMap_cons]

/-- Hexadecimal digit test on a character, by its code point. -/
def isHexDigitChar (c : Char) : Bool :=
  c.isDigit || (Nat.ble 97 c.toNat && Nat.ble c.toNat 102)
    || (Nat.ble 65 c.toNat && Nat.ble c.toNat 70)

/-- Modelled from the spec: the colors the design works with are hex strings
of the form used by the prompt color picker, a hash sign followed by six hex
digits.  The canvas color parser itself is outside the repository; this
predicate captures when a string is a well-formed hex color. -/
def isHexColor (s : String) : Bool :=
  (s.length == 7) && (s.front == '#') && (s.drop 1).toList.all isHexDigitChar

/-- C6 counterexample: a feature whose color string is not a parseable color
does not fall back to the default.  The compositor computes the color with
the JavaScript expression reading the color property with "#FF0000" as or-fallback, which only
replaces a missing or empty string; the unparseable string "notacolor" is
kept, the fill style set for the feature is "notacolor66", and the default
fill style "#FF000066" is never set for it. -/
theorem spec_C6_counterexample :
    isHexColor "notacolor" = false ∧
    colorOf (some "notacolor") = "notacolor" ∧
    colorOf (some "notacolor") ≠ "#FF0000" ∧
    CanvasOp.setFillStyle "notacolor66"
      ∈ featureOps ⟨1, 0, 1, 0⟩ 512 512
          ⟨Geometry.polygon [[(0, 0)]], some "notacolor"⟩ ∧
    CanvasOp.setFillStyle "#FF000066"
      ∉ featureOps ⟨1, 0, 1, 0⟩ 512 512
          ⟨Geometry.polygon [[(0, 0)]], some "notacolor"⟩ := by
  refine ⟨by decide, by decide, by decide, ?_, ?_⟩
  · simp [featureOps, colorOf]
  · simp [featureOps, colorOf, polyPathOps, ringOps]

/-- C6 amended: the fallback color "#FF0000" is applied exactly when the
color property is missing or the empty string; any other string, parseable
or not, is used verbatim.  Compositing never aborts: every feature of the
collection has its fill style operation in the composited trace. -/
theorem spec_C6_color_fallback (b : MapBounds) (w h : ℚ) (fs : List Feature)
    (ps : List Prompt) (f : Feature) (c : String) (hf : f ∈ fs) :
    (f.color = none → colorOf f.color = "#FF0000") ∧
    (f.color = some "" → colorOf f.color = "#FF0000") ∧
    (f.color = some c → c ≠ "" → colorOf f.color = c) ∧
    CanvasOp.setFillStyle (colorOf f.color ++ "66")
      ∈ handleSaveImageOps b w h fs ps := by
  refine ⟨?_, ?_, ?_, ?_⟩
  · intro hc; rw [hc]; rfl
  · intro hc; rw [hc]; rfl
  · intro hc hne; rw [hc]; simp [colorOf, hne]
  · have hmem : CanvasOp.setFillStyle (colorOf f.color ++ "66") ∈ featureOps b w h f := by
      simp [featureOps]
    have hflat : CanvasOp.setFillStyle (colorOf f.color ++ "66")
        ∈ fs.flatMap (featureOps b w h) :=
      List.mem_flatMap.mpr ⟨f, hf, hmem⟩
    simp only [handleSaveImageOps, List.mem_cons, List.mem_append]
    exact Or.inl (Or.inr hflat)

/-- Witness for the amended C6 at a concrete feature list. -/
theorem spec_C6_color_fallback_witness :
    (Feature.mk (Geometry.polygon [[(0, 0)]]) (some "notacolor")
        ∈ [Feature.mk (Geometry.polygon [[(0, 0)]]) (some "notacolor")]) ∧
    CanvasOp.setFillStyle
        (colorOf (Feature.mk (Geometry.polygon [[(0, 0)]]) (some "notacolor")).color ++ "66")
      ∈ handleSaveImageOps ⟨1, 0, 1, 0⟩ 512 512
          [Feature.mk (Geometry.polygon [[(0, 0)]]) (some "notacolor")] [] :=
  ⟨List.mem_singleton.mpr rfl,
   (spec_C6_color_fallback ⟨1, 0, 1, 0⟩ 512 512
      [Feature.mk (Geometry.polygon [[(0, 0)]]) (some "notacolor")] []
      (Feature.mk (Geometry.polygon [[(0, 0)]]) (some "notacolor")) "notacolor"
      (List.mem_singleton.mpr rfl)).2.2.2⟩

/-- The label string a canvas operation draws, when it is a text draw. -/
def textOf : CanvasOp → Option String
  | CanvasOp.fillText s _ _ => some s
  | _ => none

/-- All label strings drawn by a trace, in order. -/
def fillTextsOf (ops : List CanvasOp) : List String :=
  ops.filterMap textOf

/-- The fill styles in force at each 20-by-15 swatch rectangle of a trace,
in order: the state argument tracks the current fill style. -/
def swatchColorsOf : String → List CanvasOp → List String
  | _, [] => []
  | _, CanvasOp.setFillStyle s :: rest => swatchColorsOf s rest
  | cur, CanvasOp.fillRect _ _ rw rh :: rest =>
      if rw = 20 ∧ rh = 15 then cur :: swatchColorsOf cur rest
      else swatchColorsOf cur rest
  | cur, _ :: rest => swatchColorsOf cur rest

lemma fillTextsOf_append (l r : List CanvasOp) :
    fillTextsOf (l ++ r) = fillTextsOf l ++ fillTextsOf r :=
  List.filterMap_append l r textOf

lemma fillTextsOf_cons_drawImage (l : List CanvasOp) :
    fillTextsOf (CanvasOp.drawImage :: l) = fillTextsOf l := rfl

lemma fillTextsOf_cons_setFillStyle (s : String) (l : List CanvasOp) :
    fillTextsOf (CanvasOp.setFillStyle s :: l) = fillTextsOf l := rfl

lemma fillTextsOf_cons_setStrokeStyle (s : String) (l : List CanvasOp) :
    fillTextsOf (CanvasOp.setStrokeStyle s :: l) = fillTextsOf l := rfl

lemma fillTextsOf_cons_setLineWidth (q : ℚ) (l : List CanvasOp) :
    fillTextsOf (CanvasOp.setLineWidth q :: l) = fillTextsOf l := rfl

lemma fillTextsOf_cons_beginPath (l : List CanvasOp) :
    fillTextsOf (CanvasOp.beginPath :: l) = fillTextsOf l := rfl

lemma fillTextsOf_cons_moveTo (x y : ℚ) (l : List CanvasOp) :
    fillTextsOf (CanvasOp.moveTo x y :: l) = fillTextsOf l := rfl

lemma fillTextsOf_cons_lineTo (x y : ℚ) (l : List CanvasOp) :
    fillTextsOf (CanvasOp.lineTo x y :: l) = fillTextsOf l := rfl

lemma fillTextsOf_cons_closePath (l : List CanvasOp) :
    fillTextsOf (CanvasOp.closePath :: l) = fillTextsOf l := rfl

lemma fillTextsOf_cons_fillPath (l : List CanvasOp) :
    fillTextsOf (CanvasOp.fill :: l) = fillTextsOf l := rfl

lemma fillTextsOf_cons_strokePath (l : List CanvasOp) :
    fillTextsOf (CanvasOp.stroke :: l) = fillTextsOf l := rfl

lemma fillTextsOf_cons_fillRect (a d rw rh : ℚ) (l : List CanvasOp) :
    fillTextsOf (CanvasOp.fillRect a d rw rh :: l) = fillTextsOf l := rfl

lemma fillTextsOf_cons_strokeRect (a d rw rh : ℚ) (l : List CanvasOp) :
    fillTextsOf (CanvasOp.strokeRect a d rw rh :: l) = fillTextsOf l := rfl

lemma fillTextsOf_cons_setFont (s : String) (l : List CanvasOp) :
    fillTextsOf (CanvasOp.setFont s :: l) = fillTextsOf l := rfl

lemma fillTextsOf_cons_fillText (s : String) (x y : ℚ) (l : List CanvasOp) :
    fillTextsOf (CanvasOp.fillText s x y :: l) = s :: fillTextsOf l := rfl

lemma swatchColorsOf_nil (cur : String) : swatchColorsOf cur [] = [] := rfl

lemma swatchColorsOf_cons_drawImage (cur : String) (l : List CanvasOp) :
    swatchColorsOf cur (CanvasOp.drawImage :: l) = swatchColorsOf cur l := rfl

lemma swatchColorsOf_cons_setFillStyle (cur s : String) (l : List CanvasOp) :
    swatchColorsOf cur (CanvasOp.setFillStyle s :: l) = swatchColorsOf s l := rfl

lemma swatchColorsOf_cons_setStrokeStyle (cur s : String) (l : List CanvasOp) :
    swatchColorsOf cur (CanvasOp.setStrokeStyle s :: l) = swatchColorsOf cur l := rfl

lemma swatchColorsOf_cons_setLineWidth (cur : String) (q : ℚ) (l : List CanvasOp) :
    swatchColorsOf cur (CanvasOp.setLineWidth q :: l) = swatchColorsOf cur l := rfl

lemma swatchColorsOf_cons_beginPath (cur : String) (l : List CanvasOp) :
    swatchColorsOf cur (CanvasOp.beginPath :: l) = swatchColorsOf cur l := rfl

lemma swatchColorsOf_cons_moveTo (cur : String) (x y : ℚ) (l : List CanvasOp) :
    swatchColorsOf cur (CanvasOp.moveTo x y :: l) = swatchColorsOf cur l := rfl

lemma swatchColorsOf_cons_lineTo (cur : String) (x y : ℚ) (l : List CanvasOp) :
    swatchColorsOf cur (CanvasOp.lineTo x y :: l) = swatchColorsOf cur l := rfl

lemma swatchColorsOf_cons_closePath (cur : String) (l : List CanvasOp) :
    swatchColorsOf cur (CanvasOp.closePath :: l) = swatchColorsOf cur l := rfl

lemma swatchColorsOf_cons_fillPath (cur : String) (l : List CanvasOp) :
    swatchColorsOf cur (CanvasOp.fill :: l) = swatchColorsOf cur l := rfl

lemma swatchColorsOf_cons_strokePath (cur : String) (l : List CanvasOp) :
    swatchColorsOf cur (CanvasOp.stroke :: l) = swatchColorsOf cur l := rfl

lemma swatchColorsOf_cons_fillRect (cur : String) (a d rw rh : ℚ)
    (l : List CanvasOp) :
    swatchColorsOf cur (CanvasOp.fillRect a d rw rh :: l)
      = if rw = 20 ∧ rh = 15 then cur :: swatchColorsOf cur l
        else swatchColorsOf cur l := rfl

lemma swatchColorsOf_cons_strokeRect (cur : String) (a d rw rh : ℚ)
    (l : List CanvasOp) :
    swatchColorsOf cur (CanvasOp.strokeRect a d rw rh :: l)
      = swatchColorsOf cur l := rfl

lemma swatchColorsOf_cons_setFont (cur s : String) (l : List CanvasOp) :
    swatchColorsOf cur (CanvasOp.setFont s :: l) = swatchColorsOf cur l := rfl

lemma swatchColorsOf_cons_fillText (cur s : String) (x y : ℚ)
    (l : List CanvasOp) :
    swatchColorsOf cur (CanvasOp.fillText s x y :: l) = swatchColorsOf cur l := rfl

/-- A ring path contributes no swatch and no fill-style change. -/
lemma swatchColorsOf_ringOps (b : MapBounds) (w h : ℚ) (cur : String)
    (ring : List (ℚ × ℚ)) (rest : List CanvasOp) :
    swatchColorsOf cur (ringOps b w h ring ++ rest) = swatchColorsOf cur rest := by
  cases ring with
  | nil => rfl
  | cons cvert cs =>
      simp only [ringOps, List.cons_append, swatchColorsOf_cons_moveTo]
      induction cs with
      | nil => rfl
      | cons d ds ih =>
          simp only [List.map_cons, List.cons_append, swatchColorsOf_cons_lineTo]
          exact ih

/-- A polygon path block contributes no swatch and no fill-style change. -/
lemma swatchColorsOf_polyPathOps (b : MapBounds) (w h : ℚ) (cur : String)
    (rings : List (List (ℚ × ℚ))) (rest : List CanvasOp) :
    swatchColorsOf cur (polyPathOps b w h rings ++ rest)
      = swatchColorsOf cur rest := by
  simp only [polyPathOps, List.cons_append, List.append_assoc,
    swatchColorsOf_cons_beginPath]
  rw [swatchColorsOf_ringOps]
  rfl

/-- The geometry branch of a feature block contributes no swatch and no
fill-style change. -/
lemma swatchColorsOf_geometryBody (b : MapBounds) (w h : ℚ) (cur : String)
    (g : Geometry) (rest : List CanvasOp) :
    swatchColorsOf cur
      ((match g with
        | Geometry.polygon rings => polyPathOps b w h rings
        | Geometry.multiPolygon polys =>
            polys.flatMap (fun poly => polyPathOps b w h poly)) ++ rest)
      = swatchColorsOf cur rest := by
  cases g with
  | polygon rings => exact swatchColorsOf_polyPathOps b w h cur rings rest
  | multiPolygon polys =>
      show swatchColorsOf cur
          ((polys.flatMap (fun poly => polyPathOps b w h poly)) ++ rest)
          = swatchColorsOf cur rest
      induction polys with
      | nil => rfl
      | cons poly polys ih =>
          simp only [List.flatMap_cons, List.append_assoc]
          rw [swatchColorsOf_polyPathOps]
          exact ih

/-- Passing the swatch extractor over one feature block leaves the fill style
at the feature color with its alpha suffix and emits no swatch. -/
lemma swatchColorsOf_featureOps (b : MapBounds) (w h : ℚ) (cur : String)
    (f : Feature) (rest : List CanvasOp) :
    swatchColorsOf cur (featureOps b w h f ++ rest)
      = swatchColorsOf (colorOf f.color ++ "66") rest := by
  simp only [featureOps, List.cons_append, swatchColorsOf_cons_setFillStyle,
    swatchColorsOf_cons_setStrokeStyle, swatchColorsOf_cons_setLineWidth]
  exact swatchColorsOf_geometryBody b w h _ f.geometry rest

/-- The legend entries emit exactly the prompt colors, in order, whatever
fill style and vertical offset they start from. -/
lemma swatchColorsOf_legendEntries (ps : List Prompt) (cur : String) (yPos : ℚ) :
    swatchColorsOf cur (legendEntriesOps ps yPos) = ps.map Prompt.color := by
  induction ps generalizing cur yPos with
  | nil => rfl
  | cons p ps ih =>
      simp only [legendEntriesOps, legendEntryOps, List.cons_append,
        List.nil_append, List.map_cons, swatchColorsOf_cons_setFillStyle,
        swatchColorsOf_cons_fillRect, swatchColorsOf_cons_setStrokeStyle,
        swatchColorsOf_cons_strokeRect, swatchColorsOf_cons_fillText]
      split_ifs with hcon
      · rw [ih]
      · exact absurd ⟨trivial, trivial⟩ hcon

/-- The whole legend block emits exactly the prompt colors, in order. -/
lemma swatchColorsOf_legendOps (ps : List Prompt) (cur : String) :
    swatchColorsOf cur (legendOps ps) = ps.map Prompt.color := by
  simp only [legendOps, swatchColorsOf_cons_setFont,
    swatchColorsOf_cons_setFillStyle, swatchColorsOf_cons_fillRect]
  split_ifs with hcon
  · exfalso; norm_num at hcon
  · exact swatchColorsOf_legendEntries ps _ 20

/-- A ring path draws no text. -/
lemma fillTextsOf_ringOps (b : MapBounds) (w h : ℚ) (ring : List (ℚ × ℚ)) :
    fillTextsOf (ringOps b w h ring) = [] := by
  cases ring with
  | nil => rfl
  | cons cvert cs =>
      simp only [ringOps, fillTextsOf_cons_moveTo]
      induction cs with
      | nil => rfl
      | cons d ds ih =>
          simp only [List.map_cons, fillTextsOf_cons_lineTo]
          exact ih

/-- A polygon path block draws no text. -/
lemma fillTextsOf_polyPathOps (b : MapBounds) (w h : ℚ)
    (rings : List (List (ℚ × ℚ))) :
    fillTextsOf (polyPathOps b w h rings) = [] := by
  simp only [polyPathOps, fillTextsOf_cons_beginPath, fillTextsOf_append,
    fillTextsOf_ringOps, List.nil_append]
  rfl

/-- No operation of a feature block draws text. -/
lemma fillTextsOf_featureOps (b : MapBounds) (w h : ℚ) (f : Feature) :
    fillTextsOf (featureOps b w h f) = [] := by
  simp only [featureOps, fillTextsOf_cons_setFillStyle,
    fillTextsOf_cons_setStrokeStyle, fillTextsOf_cons_setLineWidth]
  cases f.geometry with
  | polygon rings => exact fillTextsOf_polyPathOps b w h rings
  | multiPolygon polys =>
      induction polys with
      | nil => rfl
      | cons poly polys ih =>
          simp only [List.flatMap_cons, fillTextsOf_append,
            fillTextsOf_polyPathOps, List.nil_append]
          exact ih

/-- The legend entries draw exactly the prompt texts, in order. -/
lemma fillTextsOf_legendEntries (ps : List Prompt) (yPos : ℚ) :
    fillTextsOf (legendEntriesOps ps yPos) = ps.map Prompt.text := by
  induction ps generalizing yPos with
  | nil => rfl
  | cons p ps ih =>
      simp only [legendEntriesOps, legendEntryOps, List.cons_append,
        List.nil_append, List.map_cons, fillTextsOf_cons_setFillStyle,
        fillTextsOf_cons_fillRect, fillTextsOf_cons_setStrokeStyle,
        fillTextsOf_cons_strokeRect, fillTextsOf_cons_fillText]
      rw [ih]

/-- C8: in the composited output the swatch rectangles carry exactly the
configured prompt colors in original input order, and the drawn labels are
exactly the prompt texts in original input order, whatever the feature
collection contributes before the legend. -/
theorem spec_C8_legend_order (b : MapBounds) (w h : ℚ) (fs : List Feature)
    (ps : List Prompt) (cur : String) :
    swatchColorsOf cur (handleSaveImageOps b w h fs ps) = ps.map Prompt.color ∧
    fillTextsOf (handleSaveImageOps b w h fs ps) = ps.map Prompt.text := by
  constructor
  · show swatchColorsOf cur
        (CanvasOp.drawImage :: (fs.flatMap (featureOps b w h) ++ legendOps ps))
        = ps.map Prompt.color
    rw [swatchColorsOf_cons_drawImage]
    induction fs generalizing cur with
    | nil => simpa using swatchColorsOf_legendOps ps cur
    | cons f fs ih =>
        rw [List.flatMap_cons, List.append_assoc, swatchColorsOf_featureOps]
        exact ih _
  · show fillTextsOf
        (CanvasOp.drawImage :: (fs.flatMap (featureOps b w h) ++ legendOps ps))
        = ps.map Prompt.text
    rw [fillTextsOf_cons_drawImage, fillTextsOf_append]
    have hfeat : fillTextsOf (fs.flatMap (featureOps b w h)) = [] := by
      induction fs with
      | nil => rfl
      | cons f fs ih =>
          rw [List.flatMap_cons, fillTextsOf_append, fillTextsOf_featureOps, ih]
          rfl
    rw [hfeat, List.nil_append]
    simp only [legendOps, fillTextsOf_cons_setFont, fillTextsOf_cons_setFillStyle,
      fillTextsOf_cons_fillRect]
    exact fillTextsOf_legendEntries ps 20

/-- The history update of handleConfirmDetection:
setCapturedImages(prev => [newCapture, ...prev].slice(0, 10)). -/
def pushCapture {α : Type} (c : α) (prev : List α) : List α :=
  (c :: prev).take 10

/-- The captured-images state after a sequence of successful detections,
each applying pushCapture to the previous state; the initial state is the
empty list, and no other code path modifies the list. -/
def historyFrom {α : Type} (pushes : List α) : List α :=
  pushes.foldl (fun acc c => pushCapture c acc) []

lemma pushCapture_length_le {α : Type} (c : α) (prev : List α) :
    (pushCapture c prev).length ≤ 10 := by
  simp only [pushCapture, List.length_take]
  exact min_le_left _ _

lemma historyFrom_concat {α : Type} (pushes : List α) (c : α) :
    historyFrom (pushes ++ [c]) = pushCapture c (historyFrom pushes) := by
  simp only [historyFrom, List.foldl_append, List.foldl_cons, List.foldl_nil]

/-- C9: the captured-images history never exceeds 10 entries, the newest
capture is always at the front after a detection, and once the list is full
a new capture drops exactly the oldest (last) entry. -/
theorem spec_C9_history_bound (α : Type) (pushes : List α) (c : α) :
    (historyFrom pushes).length ≤ 10 ∧
    (historyFrom (pushes ++ [c])).head? = some c ∧
    ((historyFrom pushes).length = 10 →
      historyFrom (pushes ++ [c]) = c :: (historyFrom pushes).dropLast) := by
  refine ⟨?_, ?_, ?_⟩
  · rcases heq : pushes.reverse with _ | ⟨p, rest⟩
    · have : pushes = [] := by
        have := congrArg List.reverse heq
        simpa using this
      simp [this, historyFrom]
    · have : pushes = rest.reverse ++ [p] := by
        have := congrArg List.reverse heq
        simpa using this
      rw [this, historyFrom_concat]
      exact pushCapture_length_le _ _
  · rw [historyFrom_concat]
    simp [pushCapture]
  · intro hfull
    rw [historyFrom_concat]
    simp only [pushCapture, List.take_succ_cons]
    congr 1
    rw [List.dropLast_eq_take, hfull]

/-- Witness for C9 with eleven successive captures of naturals. -/
theorem spec_C9_history_bound_witness :
    (historyFrom [0, 1, 2, 3, 4, 5, 6, 7, 8, 9]).length = 10 ∧
    historyFrom ([0, 1, 2, 3, 4, 5, 6, 7, 8, 9] ++ [10])
      = 10 :: (historyFrom [0, 1, 2, 3, 4, 5, 6, 7, 8, 9]).dropLast :=
  ⟨by decide,
   (spec_C9_history_bound ℕ [0, 1, 2, 3, 4, 5, 6, 7, 8, 9] 10).2.2 (by decide)⟩

/-- The UI state relevant to the loading discipline: the isLoading flag, the
preview modal visibility, whether a preview image and bounds are held, and
the number of detection requests currently awaiting a response. -/
structure AppState where
  isLoading : Bool
  showPreview : Bool
  hasPreview : Bool
  pending : Nat
deriving DecidableEq

/-- The initial component state: not loading, no preview, no pending request. -/
def initialState : AppState := ⟨false, false, false, 0⟩

/-- One UI event.  The two detection-trigger buttons carry the attribute
disabled while isLoading is true, so their click events exist only when
isLoading is false; the history entries and the cancel button have no such
guard.  A request settles, in the finally block, only while one is pending. -/
inductive UiStep : AppState → AppState → Prop where
  | detectClick (s : AppState) : s.isLoading = false →
      UiStep s { s with showPreview := true, hasPreview := true }
  | confirmClick (s : AppState) : s.isLoading = false → s.showPreview = true →
      s.hasPreview = true →
      UiStep s
        { s with showPreview := false, isLoading := true,
                 pending := s.pending + 1 }
  | requestSettled (s : AppState) : 0 < s.pending →
      UiStep s { s with isLoading := false, pending := s.pending - 1 }
  | cancelClick (s : AppState) : s.showPreview = true →
      UiStep s { s with showPreview := false, hasPreview := false }
  | historyClick (s : AppState) :
      UiStep s { s with showPreview := true, hasPreview := true }
  | otherAction (s : AppState) : UiStep s s

/-- States the UI can actually be in, starting from the initial state. -/
inductive ReachableState : AppState → Prop where
  | init : ReachableState initialState
  | step {s t : AppState} : ReachableState s → UiStep s t → ReachableState t

/-- In every reachable state the number of pending requests is one exactly
while the loading flag is set, and zero otherwise. -/
lemma pending_matches_loading {s : AppState} (hs : ReachableState s) :
    s.pending = (if s.isLoading then 1 else 0) := by
  induction hs with
  | init => rfl
  | step hr hst ih =>
      cases hst with
      | detectClick hl => exact ih
      | confirmClick hl hsp hhp => simp [ih, hl]
      | requestSettled hp =>
          simp only [ih]
          split <;> rfl
      | cancelClick hsp => exact ih
      | historyClick => exact ih
      | otherAction => exact ih

/-- C7: in every reachable UI state at most one detection request is pending,
and while the loading flag is set no UI event can increase the number of
pending requests, because both detection triggers are disabled. -/
theorem spec_C7_no_concurrent_requests (s : AppState) (hs : ReachableState s) :
    s.pending ≤ 1 ∧
    (∀ t : AppState, s.isLoading = true → UiStep s t → t.pending ≤ s.pending) := by
  constructor
  · rw [pending_matches_loading hs]
    cases s.isLoading <;> norm_num
  · intro t hl hst
    cases hst with
    | detectClick hfalse => exact le_refl _
    | confirmClick hfalse hsp hhp =>
        rw [hl] at hfalse; exact Bool.noConfusion hfalse
    | requestSettled hp => exact Nat.sub_le _ _
    | cancelClick hsp => exact le_refl _
    | historyClick => exact le_refl _
    | otherAction => exact le_refl _

/-- Witness for C7 at the initial state. -/
theorem spec_C7_no_concurrent_requests_witness :
    ReachableState initialState ∧ initialState.pending ≤ 1 :=
  ⟨ReachableState.init,
   (spec_C7_no_concurrent_requests initialState ReachableState.init).1⟩

/-- A prompt as sent over the wire, from src/frontend/lib/api.ts: text and
color only (the UI id is dropped by the map step). -/
structure ApiPrompt where
  text : String
  color : String
deriving DecidableEq

/-- Leading whitespace removal on a character list. -/
def dropLeadingWs : List Char → List Char
  | [] => []
  | c :: cs => if c.isWhitespace then dropLeadingWs cs else c :: cs

/-- The JavaScript String.prototype.trim operation: remove leading and
trailing whitespace. -/
def trimString (s : String) : String :=
  String.mk ((dropLeadingWs ((dropLeadingWs s.data).reverse)).reverse)

/-- The request prompt list built by both detection handlers:
prompts.filter(p => p.text.trim()).map(p => ({text: p.text, color: p.color})).
A string is truthy in JavaScript exactly when it is non-empty, so the filter
keeps the prompts whose trimmed text is non-empty, in list order, and the
map keeps the original untrimmed text. -/
def apiPromptsOf (ps : List Prompt) : List ApiPrompt :=
  (ps.filter (fun p => !(trimString p.text == ""))).map (fun p => ⟨p.text, p.color⟩)

/-- The request issued by handleConfirmDetection: it returns early when no
preview image and bounds are held, and otherwise always sends the filtered
prompts, with no error raised for blank prompts. -/
def handleConfirmDetectionSends (hasPreview : Bool) (ps : List Prompt) :
    Option (List ApiPrompt) :=
  if hasPreview then some (apiPromptsOf ps) else none

/-- The request issued by handleImageCapture: it rejects with an error
message when the prompt list is empty or any prompt is blank, and otherwise
sends the filtered prompts. -/
def handleImageCaptureSends (ps : List Prompt) :
    Except String (List ApiPrompt) :=
  if ps.isEmpty || ps.any (fun p => trimString p.text == "") then
    Except.error "Please add at least one prompt with text."
  else Except.ok (apiPromptsOf ps)

/-- C10: every detection request contains exactly the configured prompts
whose trimmed text is non-empty, in original input order; the confirm
handler silently drops blank prompts (it still sends, with no error), and
when the capture handler sends at all it sends the same filtered list. -/
theorem spec_C10_request_prompts (ps : List Prompt) :
    ((apiPromptsOf ps).map (fun q => (q.text, q.color))
       = (ps.map (fun p => (p.text, p.color))).filter
           (fun tc => !(trimString tc.1 == ""))) ∧
    ((apiPromptsOf ps).all (fun q => !(trimString q.text == "")) = true) ∧
    (handleConfirmDetectionSends true ps = some (apiPromptsOf ps)) ∧
    (∀ req, handleImageCaptureSends ps = Except.ok req → req = apiPromptsOf ps) := by
  refine ⟨?_, ?_, rfl, ?_⟩
  · induction ps with
    | nil => rfl
    | cons p ps ih =>
        simp only [apiPromptsOf] at ih ⊢
        cases hb : (trimString p.text == "") with
        | true => simp [List.filter_cons, hb, ih]
        | false => simp [List.filter_cons, hb, ih]
  · apply List.all_eq_true.mpr
    intro q hq
    simp only [apiPromptsOf, List.mem_map, List.mem_filter] at hq
    rcases hq with ⟨p, ⟨hpmem, hpcond⟩, rfl⟩
    simpa using hpcond
  · intro req hreq
    by_cases hcond : (ps.isEmpty || ps.any (fun p => trimString p.text == "")) = true
    · rw [handleImageCaptureSends, if_pos hcond] at hreq
      exact Except.noConfusion hreq
    · rw [handleImageCaptureSends, if_neg hcond] at hreq
      exact (Except.ok.injEq _ _ ▸ hreq).symm

/-- Witness for C10 at a concrete one-prompt list accepted by the capture
handler. -/
theorem spec_C10_request_prompts_witness :
    (handleImageCaptureSends [Prompt.mk "1" "trees" "#00FF00"]
       = Except.ok [ApiPrompt.mk "trees" "#00FF00"]) ∧
    [ApiPrompt.mk "trees" "#00FF00"]
       = apiPromptsOf [Prompt.mk "1" "trees" "#00FF00"] :=
  ⟨rfl,
   (spec_C10_request_prompts [Prompt.mk "1" "trees" "#00FF00"]).2.2.2
     [ApiPrompt.mk "trees" "#00FF00"] rfl⟩
